import Mathlib

/-!
Verification development for the LoLSkinChanger observer subsystem.

Shallow embedding of:
* `src/lcu/client.py` — the LCU connection manager (`LCU.get` retry logic);
* `src/threads/websocket_thread.py` — the event-driven state derivation
  (`WSEventThread._handle_api_event`, `WSEventThread._maybe_start_timer`);
* `src/database/name_db.py` — the Data Dragon name database
  (`NameDB.candidates_for_champ`, `NameDB._ensure_champ`, `NameDB._cache_json`).

Python dictionaries are modelled as association lists (all writers in the
source maintain key uniqueness, so first-match lookup agrees with dict
lookup); Python sets as `Finset`; `None` as `Option.none`; exceptions as
`Option`/explicit skip branches exactly where the source catches them; the
HTTP and filesystem layers as oracle parameters supplying each observed
outcome.
-/

namespace LoLSkinChanger

/-! ## Connection manager (`src/lcu/client.py`) -/

/-- Connection-relevant state of the `LCU` object: `ok`, `port`, `pw`
(the other fields — session object, base URL — are derived from these). -/
structure ConnState where
  ok : Bool
  port : Option Nat := none
  pw : Option String := none
deriving Repr, DecidableEq

/-- Observed outcome of one HTTP attempt `self.s.get(...)`:
either a `requests.exceptions.RequestException` at transport level
(`fail`), or a response with a status code and — when the body parses as
JSON — a parsed value (`none` body = `r.json()` raised). -/
inductive HttpAttempt (α : Type) where
  | fail : HttpAttempt α
  | resp (code : Nat) (body : Option α) : HttpAttempt α
deriving Repr, DecidableEq

/-- Result of one attempt as seen by `LCU.get`'s control flow:
`some v` means the attempt produced return value `v` (itself an
`Option`); `none` means a `RequestException` escaped the attempt —
either directly from the transport, or raised by `r.raise_for_status()`
on a 4xx/5xx status other than 404/405. -/
def attemptResult {α : Type} : HttpAttempt α → Option (Option α)
  | .fail => none
  | .resp code body =>
      if code = 404 ∨ code = 405 then some none
      else if 400 ≤ code ∧ code < 600 then none
      else some body

/-- Result record for `LCU.get`: the returned value, the connection state
after the call, and how many forced refreshes / retries were performed. -/
structure GetResult (α : Type) where
  value : Option α
  conn : ConnState
  forcedRefreshes : Nat
  retries : Nat
deriving Repr, DecidableEq

/-- `LCU.get` (src/lcu/client.py lines 135–165).  The filesystem-dependent
`refresh_if_needed` calls are supplied as oracles: `refresh0` is the
initial non-forced refresh (taken only when the connection starts
disabled), `refreshF` the forced refresh taken after a first-attempt
failure.  `a1`/`a2` are the outcomes of the first and second HTTP
attempts.  The function is total: no exception reaches the caller. -/
def LCU.get {α : Type} (st : ConnState) (refresh0 refreshF : ConnState → ConnState)
    (a1 a2 : HttpAttempt α) : GetResult α :=
  let st0 := if st.ok then st else refresh0 st
  if st0.ok = false then ⟨none, st0, 0, 0⟩
  else
    match attemptResult a1 with
    | some v => ⟨v, st0, 0, 0⟩
    | none =>
        let st1 := refreshF st0
        if st1.ok = false then ⟨none, st1, 1, 0⟩
        else
          match attemptResult a2 with
          | some v => ⟨v, st1, 1, 1⟩
          | none => ⟨none, st1, 1, 1⟩

/-- A connection that is enabled, used as concrete input. -/
def connOkA : ConnState := { ok := true, port := some 1234, pw := some "pw" }

/-- C1 counterexample: with an enabled connection, a transport failure on
both the first attempt and the retry, and a forced refresh that
re-establishes the connection (lockfile unchanged and readable, so
`_init_from_lockfile` sets `ok = True`), `get` returns `None` after one
forced refresh and one retry — but the connection is left ENABLED
(`ok = true`), not in the disabled state the claim asserts: the retry
path returns `None` without calling `_disable`. -/
theorem C1_get_counterexample :
    (LCU.get (α := Nat) connOkA id id .fail .fail).value = none ∧
    (LCU.get (α := Nat) connOkA id id .fail .fail).forcedRefreshes = 1 ∧
    (LCU.get (α := Nat) connOkA id id .fail .fail).retries = 1 ∧
    (LCU.get (α := Nat) connOkA id id .fail .fail).conn.ok = true := by
  decide

/-- C1 (amended): if the first HTTP attempt fails with a transport
failure (a `RequestException`, including `raise_for_status` on a
non-404/405 error status), exactly one forced refresh is performed; if
the refresh re-enables the connection, exactly one retry follows and a
second transport failure yields `None` with the connection left in its
post-refresh (enabled) state; if the refresh leaves the connection
disabled, no retry is attempted and `None` is returned with the
connection disabled.  No exception is raised to the caller (the
embedding is a total function). -/
theorem C1_get_retry_behaviour {α : Type} (st : ConnState)
    (refresh0 refreshF : ConnState → ConnState) (a1 a2 : HttpAttempt α)
    (hok : st.ok = true) (h1 : attemptResult a1 = none) :
    (LCU.get st refresh0 refreshF a1 a2).forcedRefreshes = 1 ∧
    (LCU.get st refresh0 refreshF a1 a2).conn = refreshF st ∧
    ((refreshF st).ok = true →
       (LCU.get st refresh0 refreshF a1 a2).retries = 1 ∧
       (attemptResult a2 = none →
          (LCU.get st refresh0 refreshF a1 a2).value = none)) ∧
    ((refreshF st).ok = false →
       (LCU.get st refresh0 refreshF a1 a2).retries = 0 ∧
       (LCU.get st refresh0 refreshF a1 a2).value = none) := by
  simp only [LCU.get, hok, if_true, h1]
  cases hF : (refreshF st).ok
  · simp [hF]
  · cases h2 : attemptResult a2 <;> simp [hF, h2]

/-- C1 amended-claim witness at a concrete input: enabled connection,
identity refreshes, transport failure on both attempts. -/
theorem C1_get_retry_behaviour_witness :
    (LCU.get (α := Nat) connOkA id id .fail .fail).forcedRefreshes = 1 ∧
    (LCU.get (α := Nat) connOkA id id .fail .fail).conn = id connOkA ∧
    ((id connOkA : ConnState).ok = true →
       (LCU.get (α := Nat) connOkA id id .fail .fail).retries = 1 ∧
       (attemptResult (HttpAttempt.fail (α := Nat)) = none →
          (LCU.get (α := Nat) connOkA id id .fail .fail).value = none)) ∧
    ((id connOkA : ConnState).ok = false →
       (LCU.get (α := Nat) connOkA id id .fail .fail).retries = 0 ∧
       (LCU.get (α := Nat) connOkA id id .fail .fail).value = none) :=
  C1_get_retry_behaviour connOkA id id .fail .fail (by decide) (by decide)

/-! ## Shared state and session payloads (`src/threads/websocket_thread.py`) -/

/-- Fields of `SharedState` read or written by `WSEventThread`
(src/threads/websocket_thread.py).  `locks_by_cell` is the Python dict
`cellId → championId`, modelled as an association list (it is always
replaced wholesale by `compute_locked`'s output, a dict, so keys are
unique). -/
structure SharedState where
  phase : Option String := none
  last_hovered_skin_key : Option String := none
  last_hovered_skin_id : Option Int := none
  last_hovered_skin_slug : Option String := none
  last_hover_written : Bool := false
  processed_action_ids : Finset Int := ∅
  hovered_champ_id : Option Int := none
  players_visible : Nat := 0
  locks_by_cell : List (Int × Int) := []
  all_locked_announced : Bool := false
  local_cell_id : Option Int := none
  locked_champ_id : Option Int := none
  loadout_countdown_active : Bool := false
  loadout_left0_ms : Int := 0
  loadout_t0 : Nat := 0
  ticker_seq : Nat := 0
  current_ticker : Nat := 0
deriving DecidableEq

/-- One roster member of `myTeam` / `theirTeam`: only `cellId` is read. -/
structure Player where
  cellId : Option Int
deriving Repr, DecidableEq

/-- One element of an action round: only `actorCellId` is read. -/
structure ActionInfo where
  actorCellId : Option Int
deriving Repr, DecidableEq

/-- The `timer` object of a session payload: only `phase` and
`adjustedTimeLeftInPhase` are read. -/
structure TimerInfo where
  phase : Option String := none
  adjustedTimeLeftInPhase : Option Int := none
deriving Repr, DecidableEq

/-- A champ-select session payload, restricted to the fields the thread
reads.  `none` / `[]` stand for missing or null JSON fields (the source
applies `or {}` / `or []` to them). -/
structure Session where
  localPlayerCellId : Option Int := none
  myTeam : List Player := []
  theirTeam : List Player := []
  actions : List (List ActionInfo) := []
  timer : Option TimerInfo := none
deriving Repr, DecidableEq

/-- Key set of a lock map — `set(d.keys())` on the Python dict. -/
def keysOf (m : List (Int × Int)) : Finset Int := (m.map Prod.fst).toFinset

/-- `len(d)` on the Python dict: the number of distinct keys. -/
def lockCount (m : List (Int × Int)) : Nat := (keysOf m).card

/-- `d.get(c)` on the Python dict. -/
def lookupCell (m : List (Int × Int)) (c : Int) : Option Int :=
  (m.find? (fun p => p.1 == c)).map Prod.snd

/-- Events emitted (logged) by the session derivation. -/
inductive Evt where
  | lockAcquired (cell champ : Int) (cnt total : Nat)
  | lockReleased (cell champ : Int) (cnt total : Nat)
  | allLocked (cnt total : Nat)
deriving Repr, DecidableEq

/-- `self.state.local_cell_id = sess.get("localPlayerCellId",
self.state.local_cell_id)` (line 130): keep the old value only when the
field is absent. -/
def handle_local_cell (st : SharedState) (sess : Session) : SharedState :=
  match sess.localPlayerCellId with
  | some v => { st with local_cell_id := some v }
  | none => st

/-- Distinct cell ids across both team rosters (lines 133–138). -/
def teamCells (sess : Session) : Finset Int :=
  ((sess.myTeam ++ sess.theirTeam).filterMap Player.cellId).toFinset

/-- Distinct actor cell ids across all action rounds (lines 139–144). -/
def actionCells (sess : Session) : Finset Int :=
  ((sess.actions.flatten).filterMap ActionInfo.actorCellId).toFinset

/-- The `seen` set: team cells, falling back to action cells when the
team union is empty (`if not seen:`). -/
def seenCells (sess : Session) : Finset Int :=
  if teamCells sess = ∅ then actionCells sess else teamCells sess

/-- Visible-player update (lines 146–149): store the recomputed count
only when it differs from the stored one and is nonzero. -/
def handle_visible (st : SharedState) (sess : Session) : SharedState :=
  let n := (seenCells sess).card
  if n ≠ st.players_visible ∧ 0 < n then { st with players_visible := n } else st

/-- Lock-diff derivation (lines 151–172): key-set diff of the previous
stored map against the newly computed one, added/removed sorted; emit an
acquired event per added cell (recording the locally locked champion when
the added cell is the local player's), a released event per removed cell;
then replace the stored map wholesale. -/
def handle_lock_diff (st : SharedState) (new_locks : List (Int × Int)) :
    SharedState × List Evt :=
  let prev_cells := keysOf st.locks_by_cell
  let curr_cells := keysOf new_locks
  let added := (curr_cells \ prev_cells).sort (· ≤ ·)
  let removed := (prev_cells \ curr_cells).sort (· ≤ ·)
  let addEvts := added.map (fun c =>
    Evt.lockAcquired c ((lookupCell new_locks c).getD 0) curr_cells.card st.players_visible)
  let remEvts := removed.map (fun c =>
    Evt.lockReleased c ((lookupCell st.locks_by_cell c).getD 0) curr_cells.card st.players_visible)
  let lockedId :=
    match st.local_cell_id with
    | none => st.locked_champ_id
    | some lc =>
        if lc ∈ added then some ((lookupCell new_locks lc).getD 0)
        else st.locked_champ_id
  ({ st with locks_by_cell := new_locks, locked_champ_id := lockedId },
   addEvts ++ remEvts)

/-- All-locked edge detection (lines 174–181): announce once when
`0 < total ≤ lockCount` and the flag is unset; reset the flag whenever
`lockCount < total`. -/
def handle_all_locked (st : SharedState) : SharedState × List Evt :=
  let total := st.players_visible
  let lc := lockCount st.locks_by_cell
  let fired := 0 < total ∧ total ≤ lc ∧ st.all_locked_announced = false
  let evs : List Evt := if fired then [Evt.allLocked lc total] else []
  let ann1 : Bool := if fired then true else st.all_locked_announced
  let ann2 : Bool := if lc < total then false else ann1
  ({ st with all_locked_announced := ann2 }, evs)

/-- Python's `str.upper()` (character-wise upper-casing; agrees with
`String.toUpper` but is stated directly on the character list so that it
evaluates by kernel reduction). -/
def pyUpper (s : String) : String := ⟨s.data.map Char.toUpper⟩

/-- `str(t.get("phase") or "").upper()` over the optional timer object. -/
def phaseTimerOf (sess : Session) : String :=
  pyUpper ((sess.timer.bind TimerInfo.phase).getD "")

/-- `int(t.get("adjustedTimeLeftInPhase") or 0)` over an optional
session (the probe applies it to `self.lcu.session() or {}`). -/
def sessLeft (s : Option Session) : Int :=
  ((s.bind Session.timer).bind TimerInfo.adjustedTimeLeftInPhase).getD 0

/-- The probe loop body (lines 63–70), reading poll `i` first and up to
`k` polls in total: each iteration overwrites `left_ms` with the fresh
sample and stops at the first positive one. -/
def probeFrom (polls : Nat → Option Session) : Nat → Nat → Int → Int
  | _, 0, left => left
  | i, Nat.succ k, _ =>
      let l := sessLeft (polls i)
      if 0 < l then l else probeFrom polls (i + 1) k l

/-- The probe loop: `for _ in range(8)`. -/
def probeLoop (polls : Nat → Option Session) (left0 : Int) : Int :=
  probeFrom polls 0 8 left0

/-- The arm block under `self.state.timer_lock` (lines 75–81): record the
anchor sample and instant, bump the sequence counter, mark active. -/
def armEpoch (st : SharedState) (leftMs : Int) (now : Nat) : SharedState :=
  { st with loadout_left0_ms := leftMs, loadout_t0 := now,
            ticker_seq := st.ticker_seq + 1,
            current_ticker := st.ticker_seq + 1,
            loadout_countdown_active := true }

/-- `WSEventThread._maybe_start_timer` (lines 46–86).  `polls` supplies
the successive `self.lcu.session()` results of the probe loop, `now` the
`time.monotonic()` sample.  Returns the new state and, when an epoch was
actually armed, the logged mode string. -/
def maybe_start_timer (st : SharedState) (sess : Session)
    (polls : Nat → Option Session) (now : Nat) : SharedState × Option String :=
  let phase_timer := phaseTimerOf sess
  let left0 := sessLeft (some sess)
  let total := st.players_visible
  let locked_count := lockCount st.locks_by_cell
  let step : Bool × Int :=
    if phase_timer = "FINALIZATION" ∧ 0 < left0 then (true, left0)
    else if 0 < total ∧ total ≤ locked_count then
      let l1 := if left0 ≤ 0 then probeLoop polls left0 else left0
      (decide (0 < l1), l1)
    else (false, left0)
  if step.1 then
    if st.loadout_countdown_active then (st, none)
    else
      let mode := if phase_timer = "FINALIZATION" ∧ 0 < step.2
                  then "finalization" else "lcu-probe"
      (armEpoch st step.2 now, some mode)
  else (st, none)

/-- Input of one session-update event: the payload, the lock map
computed from it by `compute_locked`, and the oracles consumed by
`_maybe_start_timer`. -/
structure SessInput where
  sess : Session
  newLocks : List (Int × Int)
  polls : Nat → Option Session
  now : Nat

/-- The session-update derivation (lines 128–184), in source order:
local cell id, visible players, lock diff, all-locked edge, timer. -/
def handle_session (st : SharedState) (inp : SessInput) : SharedState × List Evt :=
  let s1 := handle_local_cell st inp.sess
  let s2 := handle_visible s1 inp.sess
  let r3 := handle_lock_diff s2 inp.newLocks
  let r4 := handle_all_locked r3.1
  let s5 := (maybe_start_timer r4.1 inp.sess inp.polls inp.now).1
  (s5, r3.2 ++ r4.2)

/-- Phase-update derivation (lines 94–115). `none` stands for a payload
whose `data` is not a string (the `isinstance` guard fails). -/
def handle_phase (st : SharedState) (ph : Option String) : SharedState :=
  match ph with
  | none => st
  | some p =>
      if some p = st.phase then st
      else if p = "ChampSelect" then
        { st with phase := some p,
                  last_hovered_skin_key := none,
                  last_hovered_skin_id := none,
                  last_hovered_skin_slug := none,
                  last_hover_written := false,
                  processed_action_ids := ∅ }
      else
        { st with phase := some p,
                  hovered_champ_id := none,
                  players_visible := 0,
                  locks_by_cell := [],
                  all_locked_announced := false,
                  loadout_countdown_active := false }

/-- Hover-update derivation (lines 117–126).  `none` stands for data
that is absent or fails `int()` conversion; a zero id is falsy in
`if cid` and ignored. -/
def handle_hover (st : SharedState) (cid : Option Int) : SharedState :=
  match cid with
  | none => st
  | some c =>
      if c ≠ 0 ∧ some c ≠ st.hovered_champ_id then
        { st with hovered_champ_id := some c }
      else st

/-- A decoded API event, routed by its `uri` (lines 90–128); `otherEvt`
covers unmatched uris. -/
inductive ApiEvent where
  | phaseEvt (data : Option String)
  | hoverEvt (data : Option Int)
  | sessionEvt (inp : SessInput)
  | otherEvt

/-- `WSEventThread._handle_api_event` (lines 88–184). -/
def handle_api_event (st : SharedState) (ev : ApiEvent) : SharedState × List Evt :=
  match ev with
  | .phaseEvt d => (handle_phase st d, [])
  | .hoverEvt d => (handle_hover st d, [])
  | .sessionEvt inp => handle_session st inp
  | .otherEvt => (st, [])

/-- Iterated session updates, accumulating emitted events. -/
def run_session (st : SharedState) : List SessInput → SharedState × List Evt
  | [] => (st, [])
  | i :: is =>
      let r1 := handle_session st i
      let r2 := run_session r1.1 is
      (r2.1, r1.2 ++ r2.2)

/-- The state trace left by iterated session updates (state after each
update). -/
def statesAfter (st : SharedState) : List SessInput → List SharedState
  | [] => []
  | i :: is => (handle_session st i).1 :: statesAfter (handle_session st i).1 is

/-- Cells of the lock-acquired events in an event list. -/
def acquiredCells (evs : List Evt) : List Int :=
  evs.filterMap (fun e => match e with
    | .lockAcquired c _ _ _ => some c
    | _ => none)

/-- Cells of the lock-released events in an event list. -/
def releasedCells (evs : List Evt) : List Int :=
  evs.filterMap (fun e => match e with
    | .lockReleased c _ _ _ => some c
    | _ => none)

/-- Number of all-locked events in an event list. -/
def allLockedCount (evs : List Evt) : Nat :=
  (evs.filter (fun e => match e with
    | .allLocked _ _ => true
    | _ => false)).length

/-! ### Field-preservation lemmas for the session sub-steps -/

@[simp] lemma handle_local_cell_locks (st : SharedState) (sess : Session) :
    (handle_local_cell st sess).locks_by_cell = st.locks_by_cell := by
  unfold handle_local_cell; split <;> rfl

@[simp] lemma handle_local_cell_visible (st : SharedState) (sess : Session) :
    (handle_local_cell st sess).players_visible = st.players_visible := by
  unfold handle_local_cell; split <;> rfl

@[simp] lemma handle_local_cell_announced (st : SharedState) (sess : Session) :
    (handle_local_cell st sess).all_locked_announced = st.all_locked_announced := by
  unfold handle_local_cell; split <;> rfl

@[simp] lemma handle_local_cell_seq (st : SharedState) (sess : Session) :
    (handle_local_cell st sess).ticker_seq = st.ticker_seq := by
  unfold handle_local_cell; split <;> rfl

@[simp] lemma handle_visible_locks (st : SharedState) (sess : Session) :
    (handle_visible st sess).locks_by_cell = st.locks_by_cell := by
  unfold handle_visible; dsimp only; split <;> rfl

@[simp] lemma handle_visible_announced (st : SharedState) (sess : Session) :
    (handle_visible st sess).all_locked_announced = st.all_locked_announced := by
  unfold handle_visible; dsimp only; split <;> rfl

@[simp] lemma handle_visible_seq (st : SharedState) (sess : Session) :
    (handle_visible st sess).ticker_seq = st.ticker_seq := by
  unfold handle_visible; dsimp only; split <;> rfl

lemma handle_visible_players (st : SharedState) (sess : Session) :
    (handle_visible st sess).players_visible =
      (if (seenCells sess).card ≠ st.players_visible ∧ 0 < (seenCells sess).card
       then (seenCells sess).card else st.players_visible) := by
  unfold handle_visible; dsimp only; split <;> simp_all

@[simp] lemma handle_lock_diff_locks (st : SharedState) (N : List (Int × Int)) :
    (handle_lock_diff st N).1.locks_by_cell = N := rfl

@[simp] lemma handle_lock_diff_visible (st : SharedState) (N : List (Int × Int)) :
    (handle_lock_diff st N).1.players_visible = st.players_visible := rfl

@[simp] lemma handle_lock_diff_announced (st : SharedState) (N : List (Int × Int)) :
    (handle_lock_diff st N).1.all_locked_announced = st.all_locked_announced := rfl

@[simp] lemma handle_lock_diff_seq (st : SharedState) (N : List (Int × Int)) :
    (handle_lock_diff st N).1.ticker_seq = st.ticker_seq := rfl

@[simp] lemma handle_all_locked_locks (st : SharedState) :
    (handle_all_locked st).1.locks_by_cell = st.locks_by_cell := rfl

@[simp] lemma handle_all_locked_visible (st : SharedState) :
    (handle_all_locked st).1.players_visible = st.players_visible := rfl

@[simp] lemma handle_all_locked_seq (st : SharedState) :
    (handle_all_locked st).1.ticker_seq = st.ticker_seq := rfl

@[simp] lemma maybe_start_timer_locks (st : SharedState) (sess : Session)
    (polls : Nat → Option Session) (now : Nat) :
    (maybe_start_timer st sess polls now).1.locks_by_cell = st.locks_by_cell := by
  unfold maybe_start_timer armEpoch; dsimp only; split_ifs <;> rfl

@[simp] lemma maybe_start_timer_visible (st : SharedState) (sess : Session)
    (polls : Nat → Option Session) (now : Nat) :
    (maybe_start_timer st sess polls now).1.players_visible = st.players_visible := by
  unfold maybe_start_timer armEpoch; dsimp only; split_ifs <;> rfl

@[simp] lemma maybe_start_timer_announced (st : SharedState) (sess : Session)
    (polls : Nat → Option Session) (now : Nat) :
    (maybe_start_timer st sess polls now).1.all_locked_announced
      = st.all_locked_announced := by
  unfold maybe_start_timer armEpoch; dsimp only; split_ifs <;> rfl

/-! ### Event-extraction lemmas -/

@[simp] lemma acquiredCells_append (a b : List Evt) :
    acquiredCells (a ++ b) = acquiredCells a ++ acquiredCells b := by
  simp [acquiredCells]

@[simp] lemma releasedCells_append (a b : List Evt) :
    releasedCells (a ++ b) = releasedCells a ++ releasedCells b := by
  simp [releasedCells]

lemma acquiredCells_map_acq (l : List Int) (f : Int → Int) (cnt tot : Nat) :
    acquiredCells (l.map (fun c => Evt.lockAcquired c (f c) cnt tot)) = l := by
  induction l with
  | nil => rfl
  | cons h t ih => simpa [acquiredCells] using ih

lemma acquiredCells_map_rel (l : List Int) (f : Int → Int) (cnt tot : Nat) :
    acquiredCells (l.map (fun c => Evt.lockReleased c (f c) cnt tot)) = [] := by
  induction l with
  | nil => rfl
  | cons h t ih => simp [acquiredCells]

lemma releasedCells_map_rel (l : List Int) (f : Int → Int) (cnt tot : Nat) :
    releasedCells (l.map (fun c => Evt.lockReleased c (f c) cnt tot)) = l := by
  induction l with
  | nil => rfl
  | cons h t ih => simpa [releasedCells] using ih

lemma releasedCells_map_acq (l : List Int) (f : Int → Int) (cnt tot : Nat) :
    releasedCells (l.map (fun c => Evt.lockAcquired c (f c) cnt tot)) = [] := by
  induction l with
  | nil => rfl
  | cons h t ih => simp [releasedCells]

lemma handle_lock_diff_events (st : SharedState) (N : List (Int × Int)) :
    acquiredCells (handle_lock_diff st N).2
      = ((keysOf N) \ (keysOf st.locks_by_cell)).sort (· ≤ ·) ∧
    releasedCells (handle_lock_diff st N).2
      = ((keysOf st.locks_by_cell) \ (keysOf N)).sort (· ≤ ·) := by
  unfold handle_lock_diff; dsimp only
  constructor
  · simp [acquiredCells_map_acq, acquiredCells_map_rel]
  · simp [releasedCells_map_acq, releasedCells_map_rel]

@[simp] lemma handle_all_locked_no_acq (st : SharedState) :
    acquiredCells (handle_all_locked st).2 = [] := by
  unfold handle_all_locked; dsimp only; split <;> rfl

@[simp] lemma handle_all_locked_no_rel (st : SharedState) :
    releasedCells (handle_all_locked st).2 = [] := by
  unfold handle_all_locked; dsimp only; split <;> rfl

/-! ### C2 and C9: the lock-map diff -/

lemma session_lock_diff_spec (st : SharedState) (inp : SessInput) :
    acquiredCells (handle_session st inp).2
      = ((keysOf inp.newLocks) \ (keysOf st.locks_by_cell)).sort (· ≤ ·) ∧
    releasedCells (handle_session st inp).2
      = ((keysOf st.locks_by_cell) \ (keysOf inp.newLocks)).sort (· ≤ ·) ∧
    (handle_session st inp).1.locks_by_cell = inp.newLocks := by
  unfold handle_session; dsimp only
  refine ⟨?_, ?_, by simp⟩
  · have h := (handle_lock_diff_events
      (handle_visible (handle_local_cell st inp.sess) inp.sess) inp.newLocks).1
    simpa using h
  · have h := (handle_lock_diff_events
      (handle_visible (handle_local_cell st inp.sess) inp.sess) inp.newLocks).2
    simpa using h

/-- C2: during a session update with stored lock map `P` and newly
computed lock map `N`, the cells of the emitted lock-acquired events are
exactly `keys(N) \ keys(P)`, those of the lock-released events exactly
`keys(P) \ keys(N)`, each listed in ascending order (so the two event
sets together cover the symmetric difference of the key sets), and the
stored map afterwards is exactly `N`. -/
theorem C2_lock_diff_symm_diff (st : SharedState) (inp : SessInput) :
    acquiredCells (handle_session st inp).2
      = ((keysOf inp.newLocks) \ (keysOf st.locks_by_cell)).sort (· ≤ ·) ∧
    releasedCells (handle_session st inp).2
      = ((keysOf st.locks_by_cell) \ (keysOf inp.newLocks)).sort (· ≤ ·) ∧
    (handle_session st inp).1.locks_by_cell = inp.newLocks :=
  session_lock_diff_spec st inp

lemma lookupCell_mem_keys (m : List (Int × Int)) (c x : Int)
    (h : lookupCell m c = some x) : c ∈ keysOf m := by
  unfold lookupCell at h
  obtain ⟨p, hp, hx⟩ := Option.map_eq_some'.mp h
  have hmem := List.mem_of_find?_eq_some hp
  have hkey : p.1 = c := by
    have h2 := List.find?_some hp
    simpa using h2
  subst hkey
  exact List.mem_toFinset.mpr (List.mem_map_of_mem Prod.fst hmem)

/-- C9: if a slot is present in both the previous and the new lock map
(with a different champion id), the session update emits neither a
lock-acquired nor a lock-released event for that slot — the diff is by
key set only — yet the stored map afterwards holds the new champion id
for that slot. -/
theorem C9_relock_no_events (st : SharedState) (inp : SessInput)
    (c oldCh newCh : Int)
    (hold : lookupCell st.locks_by_cell c = some oldCh)
    (hnew : lookupCell inp.newLocks c = some newCh)
    (_hdiff : oldCh ≠ newCh) :
    c ∉ acquiredCells (handle_session st inp).2 ∧
    c ∉ releasedCells (handle_session st inp).2 ∧
    lookupCell (handle_session st inp).1.locks_by_cell c = some newCh := by
  obtain ⟨ha, hr, hl⟩ := session_lock_diff_spec st inp
  refine ⟨?_, ?_, by rw [hl]; exact hnew⟩
  · rw [ha]
    intro hmem
    rw [Finset.mem_sort] at hmem
    exact (Finset.mem_sdiff.mp hmem).2 (lookupCell_mem_keys _ _ _ hold)
  · rw [hr]
    intro hmem
    rw [Finset.mem_sort] at hmem
    exact (Finset.mem_sdiff.mp hmem).2 (lookupCell_mem_keys _ _ _ hnew)

/-- Concrete state for the C9 witness: slot 1 locked on champion 10. -/
def st9 : SharedState := { locks_by_cell := [(1, 10)] }

/-- Concrete input for the C9 witness: slot 1 now locked on champion 20. -/
def inp9 : SessInput :=
  { sess := {}, newLocks := [(1, 20)], polls := fun _ => none, now := 0 }

/-- C9 witness: slot 1 changes champion 10 → 20; no lock event is
emitted for it and the stored map holds 20. -/
theorem C9_relock_no_events_witness :
    (1 : Int) ∉ acquiredCells (handle_session st9 inp9).2 ∧
    (1 : Int) ∉ releasedCells (handle_session st9 inp9).2 ∧
    lookupCell (handle_session st9 inp9).1.locks_by_cell 1 = some 20 :=
  C9_relock_no_events st9 inp9 1 10 20 (by decide) (by decide) (by decide)

/-! ### C3: all-locked edge detection -/

@[simp] lemma allLockedCount_append (a b : List Evt) :
    allLockedCount (a ++ b) = allLockedCount a + allLockedCount b := by
  simp [allLockedCount]

lemma allLockedCount_map_acq (l : List Int) (f : Int → Int) (cnt tot : Nat) :
    allLockedCount (l.map (fun c => Evt.lockAcquired c (f c) cnt tot)) = 0 := by
  induction l with
  | nil => rfl
  | cons h t ih => simp [allLockedCount]

lemma allLockedCount_map_rel (l : List Int) (f : Int → Int) (cnt tot : Nat) :
    allLockedCount (l.map (fun c => Evt.lockReleased c (f c) cnt tot)) = 0 := by
  induction l with
  | nil => rfl
  | cons h t ih => simp [allLockedCount]

@[simp] lemma handle_lock_diff_no_allLocked (st : SharedState) (N : List (Int × Int)) :
    allLockedCount (handle_lock_diff st N).2 = 0 := by
  unfold handle_lock_diff; dsimp only
  simp [allLockedCount_map_acq, allLockedCount_map_rel]

@[simp] lemma handle_local_cell_active (st : SharedState) (sess : Session) :
    (handle_local_cell st sess).loadout_countdown_active
      = st.loadout_countdown_active := by
  unfold handle_local_cell; split <;> rfl

@[simp] lemma handle_visible_active (st : SharedState) (sess : Session) :
    (handle_visible st sess).loadout_countdown_active
      = st.loadout_countdown_active := by
  unfold handle_visible; dsimp only; split <;> rfl

@[simp] lemma handle_lock_diff_active (st : SharedState) (N : List (Int × Int)) :
    (handle_lock_diff st N).1.loadout_countdown_active
      = st.loadout_countdown_active := rfl

@[simp] lemma handle_all_locked_active (st : SharedState) :
    (handle_all_locked st).1.loadout_countdown_active
      = st.loadout_countdown_active := rfl

lemma handle_all_locked_spec (st : SharedState) :
    allLockedCount (handle_all_locked st).2
      = (if 0 < st.players_visible ∧
            st.players_visible ≤ lockCount st.locks_by_cell ∧
            st.all_locked_announced = false
         then 1 else 0) ∧
    (handle_all_locked st).1.all_locked_announced
      = (if lockCount st.locks_by_cell < st.players_visible then false
         else if 0 < st.players_visible ∧
                 st.players_visible ≤ lockCount st.locks_by_cell ∧
                 st.all_locked_announced = false
              then true else st.all_locked_announced) := by
  unfold handle_all_locked allLockedCount; dsimp only
  constructor
  · split_ifs <;> simp_all
  · split_ifs <;> simp_all

/-- The visible-player total that the all-locked check reads: the value
stored after the visible-players update of the same session event. -/
def checkTotal (st : SharedState) (inp : SessInput) : Nat :=
  (handle_visible (handle_local_cell st inp.sess) inp.sess).players_visible

lemma session_allLocked_step (st : SharedState) (inp : SessInput) :
    allLockedCount (handle_session st inp).2
      = (if 0 < checkTotal st inp ∧
            checkTotal st inp ≤ lockCount inp.newLocks ∧
            st.all_locked_announced = false
         then 1 else 0) ∧
    (handle_session st inp).1.all_locked_announced
      = (if lockCount inp.newLocks < checkTotal st inp then false
         else if 0 < checkTotal st inp ∧
                 checkTotal st inp ≤ lockCount inp.newLocks ∧
                 st.all_locked_announced = false
              then true else st.all_locked_announced) ∧
    (handle_session st inp).1.players_visible = checkTotal st inp ∧
    (handle_session st inp).1.locks_by_cell = inp.newLocks := by
  have h := handle_all_locked_spec
    ((handle_lock_diff (handle_visible (handle_local_cell st inp.sess) inp.sess)
      inp.newLocks).1)
  unfold handle_session checkTotal; dsimp only
  simp only [handle_lock_diff_visible, handle_lock_diff_locks,
    handle_lock_diff_announced, handle_visible_announced,
    handle_local_cell_announced] at h
  refine ⟨?_, ?_, by simp, by simp⟩
  · simp [h.1]
  · simp [h.2]

lemma run_allLocked_bound (l : List SessInput) (st : SharedState)
    (hstreak : ∀ s ∈ statesAfter st l,
        s.players_visible ≤ lockCount s.locks_by_cell) :
    allLockedCount (run_session st l).2
      ≤ (if st.all_locked_announced then 0 else 1) ∧
    (st.all_locked_announced = true →
      (run_session st l).1.all_locked_announced = true) := by
  induction l generalizing st with
  | nil =>
      refine ⟨?_, fun h => h⟩
      simp only [run_session, allLockedCount]
      split <;> simp
  | cons i is ih =>
      obtain ⟨hcount, hann, hpv, hlk⟩ := session_allLocked_step st i
      have h1 : ((handle_session st i).1.players_visible
          ≤ lockCount (handle_session st i).1.locks_by_cell) :=
        hstreak _ (by simp [statesAfter])
      have hrest : ∀ s ∈ statesAfter (handle_session st i).1 is,
          s.players_visible ≤ lockCount s.locks_by_cell := by
        intro s hs
        exact hstreak s (by simp [statesAfter, hs])
      have hchk : checkTotal st i ≤ lockCount i.newLocks := by
        rw [← hpv, ← hlk]; exact h1
      have hnotlt : ¬ (lockCount i.newLocks < checkTotal st i) :=
        Nat.not_lt.mpr hchk
      obtain ⟨ihc, iha⟩ := ih (handle_session st i).1 hrest
      simp only [run_session, allLockedCount_append]
      cases hA : st.all_locked_announced with
      | true =>
          have hstep0 : allLockedCount (handle_session st i).2 = 0 := by
            rw [hcount]; simp [hA]
          have hann1 : (handle_session st i).1.all_locked_announced = true := by
            rw [hann]; simp [hnotlt, hA]
          constructor
          · have := ihc
            rw [hann1] at this
            simp only [if_true] at this
            simp [hstep0, hA]
            omega
          · intro _
            exact iha hann1
      | false =>
          by_cases hfire : 0 < checkTotal st i ∧
              checkTotal st i ≤ lockCount i.newLocks ∧
              st.all_locked_announced = false
          · have hstep1 : allLockedCount (handle_session st i).2 = 1 := by
              rw [hcount]; simp [hfire]
            have hann1 : (handle_session st i).1.all_locked_announced = true := by
              rw [hann]; simp [hnotlt, hfire]
            have := ihc
            rw [hann1] at this
            simp only [if_true] at this
            refine ⟨?_, by simp [hA]⟩
            simp [hstep1, hA]
            omega
          · have hstep0 : allLockedCount (handle_session st i).2 = 0 := by
              rw [hcount]; simp [hfire]
            refine ⟨?_, by simp [hA]⟩
            have hbound : allLockedCount (run_session (handle_session st i).1 is).2 ≤ 1 := by
              refine le_trans ihc ?_
              split <;> omega
            simp [hstep0, hA]
            omega

/-- C3: during a session update, an all-locked event is emitted exactly
when the (freshly updated) visible total is positive, the lock count
reaches it, and the announced flag was unset; emitting it sets the flag;
the flag is reset whenever the lock count falls below the visible total.
Consequently, within any streak of session updates whose resulting
states keep lock-count ≥ visible-count the event fires at most once, and
after any update that observed a drop below the visible total it fires
again on the next update satisfying the fire condition. -/
theorem C3_all_locked_edge :
    (∀ (st : SharedState) (inp : SessInput),
       (allLockedCount (handle_session st inp).2 = 1 ↔
          (0 < (handle_session st inp).1.players_visible ∧
           (handle_session st inp).1.players_visible
             ≤ lockCount (handle_session st inp).1.locks_by_cell ∧
           st.all_locked_announced = false)) ∧
       (allLockedCount (handle_session st inp).2 = 1 →
          (handle_session st inp).1.all_locked_announced = true) ∧
       (lockCount (handle_session st inp).1.locks_by_cell
            < (handle_session st inp).1.players_visible →
          (handle_session st inp).1.all_locked_announced = false)) ∧
    (∀ (st : SharedState) (l : List SessInput),
       (∀ s ∈ statesAfter st l, s.players_visible ≤ lockCount s.locks_by_cell) →
       allLockedCount (run_session st l).2 ≤ 1) ∧
    (∀ (st : SharedState) (i1 i2 : SessInput),
       lockCount (handle_session st i1).1.locks_by_cell
           < (handle_session st i1).1.players_visible →
       0 < (handle_session (handle_session st i1).1 i2).1.players_visible →
       (handle_session (handle_session st i1).1 i2).1.players_visible
           ≤ lockCount (handle_session (handle_session st i1).1 i2).1.locks_by_cell →
       allLockedCount (handle_session (handle_session st i1).1 i2).2 = 1) := by
  have instant : ∀ (st : SharedState) (inp : SessInput),
      (allLockedCount (handle_session st inp).2 = 1 ↔
         (0 < (handle_session st inp).1.players_visible ∧
          (handle_session st inp).1.players_visible
            ≤ lockCount (handle_session st inp).1.locks_by_cell ∧
          st.all_locked_announced = false)) ∧
      (allLockedCount (handle_session st inp).2 = 1 →
         (handle_session st inp).1.all_locked_announced = true) ∧
      (lockCount (handle_session st inp).1.locks_by_cell
           < (handle_session st inp).1.players_visible →
         (handle_session st inp).1.all_locked_announced = false) := by
    intro st inp
    obtain ⟨hcount, hann, hpv, hlk⟩ := session_allLocked_step st inp
    rw [hpv, hlk] at *
    refine ⟨?_, ?_, ?_⟩
    · rw [hcount]
      split_ifs with hc
      · simp [hc]
      · simp [hc]
    · intro h1
      rw [hcount] at h1
      split_ifs at h1 with hc
      · rw [hann]
        have : ¬ (lockCount inp.newLocks < checkTotal st inp) :=
          Nat.not_lt.mpr hc.2.1
        simp [this, hc]
    · intro hlt
      rw [hann]
      simp [hlt]
  refine ⟨instant, ?_, ?_⟩
  · intro st l hstreak
    have h := (run_allLocked_bound l st hstreak).1
    refine le_trans h ?_
    split <;> omega
  · intro st i1 i2 hdrop hpos hle
    have hreset := ((instant st i1).2.2) hdrop
    exact ((instant (handle_session st i1).1 i2).1).mpr ⟨hpos, hle, hreset⟩

/-- Concrete state/input for the C3 witness. -/
def st3 : SharedState := { players_visible := 1 }

/-- Concrete input for the C3 witness: one player, one lock. -/
def inp3 : SessInput :=
  { sess := {}, newLocks := [(0, 7)], polls := fun _ => none, now := 0 }

/-- C3 witness: the streak bound applied to a one-element streak. -/
theorem C3_all_locked_edge_witness :
    allLockedCount (run_session st3 [inp3]).2 ≤ 1 :=
  C3_all_locked_edge.2.1 st3 [inp3] (by decide)

/-! ### C6: visible-player derivation -/

/-- C6: on a session update the candidate count is the union of distinct
slot ids over both rosters, falling back to actor slot ids when that
union is empty; the stored count changes exactly when the recomputed
value differs from it and is nonzero, so an empty snapshot never resets
a known count. -/
theorem C6_visible_players (st : SharedState) (inp : SessInput) :
    (handle_session st inp).1.players_visible =
      (if (seenCells inp.sess).card ≠ st.players_visible ∧
          0 < (seenCells inp.sess).card
       then (seenCells inp.sess).card else st.players_visible) ∧
    seenCells inp.sess =
      (if teamCells inp.sess = ∅ then actionCells inp.sess else teamCells inp.sess) ∧
    ((seenCells inp.sess).card = 0 →
      (handle_session st inp).1.players_visible = st.players_visible) := by
  have hmain : (handle_session st inp).1.players_visible =
      (if (seenCells inp.sess).card ≠ st.players_visible ∧
          0 < (seenCells inp.sess).card
       then (seenCells inp.sess).card else st.players_visible) := by
    unfold handle_session; dsimp only
    simp only [maybe_start_timer_visible, handle_all_locked_visible,
      handle_lock_diff_visible]
    rw [handle_visible_players]
    simp
  refine ⟨hmain, rfl, ?_⟩
  intro h0
  rw [hmain, h0]
  simp

/-- C6 witness: a session payload with empty rosters and empty action
list leaves a previously known count of 3 untouched. -/
theorem C6_visible_players_witness :
    (handle_session { players_visible := 3 }
        { sess := {}, newLocks := [], polls := fun _ => none, now := 0 }).1.players_visible
      = ({ players_visible := 3 } : SharedState).players_visible :=
  (C6_visible_players { players_visible := 3 }
      { sess := {}, newLocks := [], polls := fun _ => none, now := 0 }).2.2 (by decide)

/-! ### C7: phase transitions -/

/-- C7: the stored phase changes only when the incoming phase differs;
entering `ChampSelect` clears the hover caches and the processed-action
dedup set and nothing else (player count and lock map untouched);
changing to any other phase clears the hovered champion, zeroes the
player count, empties the lock map, clears the all-locked flag and
deactivates the countdown, and nothing else. -/
theorem C7_phase_transition (st : SharedState) (p : String) :
    (handle_phase st none = st) ∧
    (some p = st.phase → handle_phase st (some p) = st) ∧
    (some p ≠ st.phase → p = "ChampSelect" →
       handle_phase st (some p) =
         { st with phase := some p,
                   last_hovered_skin_key := none,
                   last_hovered_skin_id := none,
                   last_hovered_skin_slug := none,
                   last_hover_written := false,
                   processed_action_ids := ∅ }) ∧
    (some p ≠ st.phase → p ≠ "ChampSelect" →
       handle_phase st (some p) =
         { st with phase := some p,
                   hovered_champ_id := none,
                   players_visible := 0,
                   locks_by_cell := [],
                   all_locked_announced := false,
                   loadout_countdown_active := false }) := by
  refine ⟨rfl, ?_, ?_, ?_⟩ <;>
    (intros
     unfold handle_phase
     dsimp only
     split_ifs <;> simp_all)

/-- C7 witness: leaving `ChampSelect` for `InProgress` from a populated
state clears exactly the session-scoped fields. -/
theorem C7_phase_transition_witness :
    handle_phase { phase := some "ChampSelect", players_visible := 5,
                   locks_by_cell := [(1, 10)], all_locked_announced := true,
                   loadout_countdown_active := true, ticker_seq := 4 }
        (some "InProgress")
      = { phase := some "InProgress", players_visible := 0,
          locks_by_cell := [], all_locked_announced := false,
          loadout_countdown_active := false, ticker_seq := 4,
          hovered_champ_id := none } := by
  have h := (C7_phase_transition
    { phase := some "ChampSelect", players_visible := 5,
      locks_by_cell := [(1, 10)], all_locked_announced := true,
      loadout_countdown_active := true, ticker_seq := 4 }
    "InProgress").2.2.2 (by decide) (by decide)
  exact h

/-! ### C5 and C10: the countdown epoch and the sequence counter -/

lemma mst_spec (st : SharedState) (sess : Session)
    (polls : Nat → Option Session) (now : Nat) :
    (st.loadout_countdown_active = true →
       maybe_start_timer st sess polls now = (st, none)) ∧
    ((maybe_start_timer st sess polls now).2 = none →
       (maybe_start_timer st sess polls now).1 = st) ∧
    ((maybe_start_timer st sess polls now).2 ≠ none →
       st.loadout_countdown_active = false ∧
       (maybe_start_timer st sess polls now).1.loadout_countdown_active = true ∧
       (maybe_start_timer st sess polls now).1.ticker_seq = st.ticker_seq + 1 ∧
       (maybe_start_timer st sess polls now).1.current_ticker = st.ticker_seq + 1) := by
  unfold maybe_start_timer armEpoch; dsimp only
  split_ifs <;> simp_all

/-- C5: an arming attempt while an epoch is already active changes
nothing (all epoch fields — anchor sample, anchor instant, sequence
number, active flag — keep their values, as does the rest of the state);
the check-and-set is one atomic transition of the embedding (the source
performs it under `state.timer_lock`); and every successful arming
strictly increases the sequence counter, moving the active flag from
unset to set — so a second epoch can only be armed after the first is
deactivated. -/
theorem C5_arm_check_and_set (st : SharedState) (sess : Session)
    (polls : Nat → Option Session) (now : Nat) :
    (st.loadout_countdown_active = true →
       maybe_start_timer st sess polls now = (st, none)) ∧
    ((maybe_start_timer st sess polls now).2 = none →
       (maybe_start_timer st sess polls now).1 = st) ∧
    ((maybe_start_timer st sess polls now).2 ≠ none →
       st.loadout_countdown_active = false ∧
       (maybe_start_timer st sess polls now).1.loadout_countdown_active = true ∧
       (maybe_start_timer st sess polls now).1.ticker_seq = st.ticker_seq + 1 ∧
       (maybe_start_timer st sess polls now).1.current_ticker = st.ticker_seq + 1 ∧
       st.ticker_seq < (maybe_start_timer st sess polls now).1.ticker_seq) := by
  obtain ⟨h1, h2, h3⟩ := mst_spec st sess polls now
  refine ⟨h1, h2, fun h => ?_⟩
  obtain ⟨a, b, c, d⟩ := h3 h
  exact ⟨a, b, c, d, by omega⟩

/-- A state with an active countdown epoch, for the C5 witness. -/
def stActive : SharedState := { loadout_countdown_active := true }

/-- C5 witness: with an epoch already active, an arming attempt on an
all-locked snapshot is a no-op. -/
theorem C5_arm_check_and_set_witness :
    maybe_start_timer stActive {} (fun _ => none) 0 = (stActive, none) :=
  (C5_arm_check_and_set stActive {} (fun _ => none) 0).1 rfl

lemma handle_phase_seq (st : SharedState) (ph : Option String) :
    (handle_phase st ph).ticker_seq = st.ticker_seq := by
  cases ph with
  | none => rfl
  | some p => unfold handle_phase; dsimp only; split_ifs <;> rfl

lemma handle_hover_seq (st : SharedState) (cid : Option Int) :
    (handle_hover st cid).ticker_seq = st.ticker_seq := by
  cases cid with
  | none => rfl
  | some c => unfold handle_hover; dsimp only; split_ifs <;> rfl

/-- C10: across every operation of the event thread the ticker sequence
number never decreases; it changes only by a successful arming, which
increments it by exactly one and flips the countdown-active flag from
unset to set; phase and hover events never change it — in particular a
phase change away from `ChampSelect` clears the countdown-active flag
while leaving the sequence number unchanged. -/
theorem C10_seq_monotone (st : SharedState) (ev : ApiEvent) :
    st.ticker_seq ≤ (handle_api_event st ev).1.ticker_seq ∧
    ((handle_api_event st ev).1.ticker_seq = st.ticker_seq ∨
     ((handle_api_event st ev).1.ticker_seq = st.ticker_seq + 1 ∧
      st.loadout_countdown_active = false ∧
      (handle_api_event st ev).1.loadout_countdown_active = true)) ∧
    (∀ d, ev = .phaseEvt d →
       (handle_api_event st ev).1.ticker_seq = st.ticker_seq) ∧
    (∀ d, ev = .hoverEvt d →
       (handle_api_event st ev).1.ticker_seq = st.ticker_seq) ∧
    (∀ p, ev = .phaseEvt (some p) → some p ≠ st.phase → p ≠ "ChampSelect" →
       (handle_api_event st ev).1.loadout_countdown_active = false ∧
       (handle_api_event st ev).1.ticker_seq = st.ticker_seq) := by
  cases ev with
  | phaseEvt d =>
      refine ⟨?_, ?_, ?_, ?_, ?_⟩
      · simp [handle_api_event, handle_phase_seq]
      · left; simp [handle_api_event, handle_phase_seq]
      · intro d2 h2; simp [handle_api_event, handle_phase_seq]
      · intro d2 h2; cases h2
      · intro p hp hne hcs
        cases hp
        refine ⟨?_, by simp [handle_api_event, handle_phase_seq]⟩
        simp only [handle_api_event]
        unfold handle_phase
        dsimp only
        split_ifs <;> simp_all
  | hoverEvt d =>
      refine ⟨?_, ?_, ?_, ?_, ?_⟩
      · simp [handle_api_event, handle_hover_seq]
      · left; simp [handle_api_event, handle_hover_seq]
      · intro d2 h2; cases h2
      · intro d2 h2; simp [handle_api_event, handle_hover_seq]
      · intro p hp; cases hp
  | sessionEvt inp =>
      have hC : ∀ s4 : SharedState,
          s4.ticker_seq = st.ticker_seq →
          s4.loadout_countdown_active = st.loadout_countdown_active →
          ∀ (r : SharedState × Option String),
            r = maybe_start_timer s4 inp.sess inp.polls inp.now →
            (st.ticker_seq ≤ r.1.ticker_seq ∧
             (r.1.ticker_seq = st.ticker_seq ∨
              (r.1.ticker_seq = st.ticker_seq + 1 ∧
               st.loadout_countdown_active = false ∧
               r.1.loadout_countdown_active = true))) := by
        intro s4 hs hact r hr
        obtain ⟨h1, h2, h3⟩ := mst_spec s4 inp.sess inp.polls inp.now
        by_cases hm : (maybe_start_timer s4 inp.sess inp.polls inp.now).2 = none
        · have := h2 hm
          subst hr
          rw [this, hs]
          exact ⟨le_refl _, Or.inl rfl⟩
        · obtain ⟨a, b, c, _⟩ := h3 hm
          subst hr
          rw [c, hs]
          refine ⟨by omega, Or.inr ⟨rfl, ?_, b⟩⟩
          rw [← hact]; exact a
      have hmain := hC
        ((handle_all_locked ((handle_lock_diff
            (handle_visible (handle_local_cell st inp.sess) inp.sess)
            inp.newLocks).1)).1)
        (by simp) (by simp) _ rfl
      refine ⟨?_, ?_, ?_, ?_, ?_⟩
      · exact hmain.1
      · exact hmain.2
      · intro d2 h2; cases h2
      · intro d2 h2; cases h2
      · intro p hp; cases hp
  | otherEvt =>
      refine ⟨le_refl _, Or.inl rfl, ?_, ?_, ?_⟩
      · intro d2 h2; cases h2
      · intro d2 h2; cases h2
      · intro p hp; cases hp

/-! ### C4: the arming triggers -/

lemma probeFrom_pos_iff (polls : Nat → Option Session) (i k : Nat) (left : Int)
    (hleft : left ≤ 0) :
    0 < probeFrom polls i k left ↔ ∃ j, j < k ∧ 0 < sessLeft (polls (i + j)) := by
  induction k generalizing i left with
  | zero =>
      simp only [probeFrom]
      constructor
      · intro h; omega
      · rintro ⟨j, hj, _⟩; omega
  | succ k ih =>
      unfold probeFrom
      dsimp only
      by_cases hl : 0 < sessLeft (polls i)
      · simp only [if_pos hl]
        constructor
        · intro _; exact ⟨0, by omega, by simpa using hl⟩
        · intro _; exact hl
      · simp only [if_neg hl]
        rw [ih (i + 1) (sessLeft (polls i)) (by omega)]
        constructor
        · rintro ⟨j, hj, hp⟩
          refine ⟨j + 1, by omega, ?_⟩
          have harith : i + (j + 1) = i + 1 + j := by omega
          rw [harith]; exact hp
        · rintro ⟨j, hj, hp⟩
          cases j with
          | zero => exact absurd (by simpa using hp) hl
          | succ j2 =>
              refine ⟨j2, by omega, ?_⟩
              have harith : i + 1 + j2 = i + (j2 + 1) := by omega
              rw [harith]; exact hp

/-- State for the C4 counterexample: one visible player, already locked,
no active countdown. -/
def stC4 : SharedState := { players_visible := 1, locks_by_cell := [(0, 10)] }

/-- Session for the C4 counterexample: phase timer in a non-finalization
phase with positive remaining time. -/
def sessC4 : Session :=
  { timer := some { phase := some "BAN_PICK", adjustedTimeLeftInPhase := some 500 } }

/-- C4 counterexample: with all visible players locked, a POSITIVE
reported remaining time and a phase-timer name different from
FINALIZATION, neither of the claim's two triggers holds (the probe
trigger requires a non-positive remaining time), so the claim says no
arming happens — yet the code arms immediately, without polling, in
mode `lcu-probe`. -/
theorem C4_arming_counterexample :
    phaseTimerOf sessC4 ≠ "FINALIZATION" ∧
    0 < sessLeft (some sessC4) ∧
    0 < stC4.players_visible ∧
    stC4.players_visible ≤ lockCount stC4.locks_by_cell ∧
    (maybe_start_timer stC4 sessC4 (fun _ => none) 0).2 = some "lcu-probe" ∧
    (maybe_start_timer stC4 sessC4 (fun _ => none) 0).1.loadout_countdown_active
      = true := by
  decide

/-- C4 (amended): with no epoch active, arming on a session update
follows priority-ordered triggers: (1) phase-timer FINALIZATION with
positive remaining time arms immediately with that value in mode
"finalization"; (2) otherwise, when all visible players are locked:
with a positive reported remaining time it arms immediately with that
value in mode "lcu-probe"; with a non-positive reported remaining time
it polls the session endpoint up to 8 times (at ~60 ms intervals,
untimed in the embedding) and arms exactly when one of the 8 samples is
positive, with the first positive sample and mode "finalization" when
the phase-timer name is FINALIZATION, else "lcu-probe"; (3) in all
other cases it does not arm and changes nothing. -/
theorem C4_arming_triggers (st : SharedState) (sess : Session)
    (polls : Nat → Option Session) (now : Nat)
    (hInactive : st.loadout_countdown_active = false) :
    (phaseTimerOf sess = "FINALIZATION" → 0 < sessLeft (some sess) →
       maybe_start_timer st sess polls now
         = (armEpoch st (sessLeft (some sess)) now, some "finalization")) ∧
    (¬ (phaseTimerOf sess = "FINALIZATION" ∧ 0 < sessLeft (some sess)) →
     0 < st.players_visible → st.players_visible ≤ lockCount st.locks_by_cell →
     0 < sessLeft (some sess) →
       maybe_start_timer st sess polls now
         = (armEpoch st (sessLeft (some sess)) now, some "lcu-probe")) ∧
    (¬ (phaseTimerOf sess = "FINALIZATION" ∧ 0 < sessLeft (some sess)) →
     0 < st.players_visible → st.players_visible ≤ lockCount st.locks_by_cell →
     sessLeft (some sess) ≤ 0 →
       (((maybe_start_timer st sess polls now).2).isSome
          ↔ ∃ j, j < 8 ∧ 0 < sessLeft (polls j)) ∧
       (0 < probeLoop polls (sessLeft (some sess)) →
          maybe_start_timer st sess polls now
            = (armEpoch st (probeLoop polls (sessLeft (some sess))) now,
               some (if phaseTimerOf sess = "FINALIZATION"
                     then "finalization" else "lcu-probe")))) ∧
    (¬ (phaseTimerOf sess = "FINALIZATION" ∧ 0 < sessLeft (some sess)) →
     ¬ (0 < st.players_visible ∧ st.players_visible ≤ lockCount st.locks_by_cell) →
       maybe_start_timer st sess polls now = (st, none)) := by
  refine ⟨?_, ?_, ?_, ?_⟩
  · intro hpt hpos
    unfold maybe_start_timer; dsimp only
    simp [hpt, hpos, hInactive]
  · intro hnot hvis hlock hpos
    have hptne : ¬ phaseTimerOf sess = "FINALIZATION" := fun h => hnot ⟨h, hpos⟩
    unfold maybe_start_timer; dsimp only
    simp [hnot, hptne, hvis, hlock, hInactive, not_le.mpr hpos, hpos]
  · intro hnot hvis hlock hle
    unfold maybe_start_timer; dsimp only
    simp only [if_neg hnot, if_pos (And.intro hvis hlock), if_pos hle]
    constructor
    · by_cases hp : 0 < probeLoop polls (sessLeft (some sess))
      · rw [iff_true_right]
        · simp [hp, hInactive]
        · have hp2 : 0 < probeFrom polls 0 8 (sessLeft (some sess)) := hp
          have h8 := (probeFrom_pos_iff polls 0 8 (sessLeft (some sess)) hle).mp hp2
          simpa using h8
      · have h8 : ¬ ∃ j, j < 8 ∧ 0 < sessLeft (polls j) := by
          intro hex
          apply hp
          show 0 < probeFrom polls 0 8 (sessLeft (some sess))
          rw [probeFrom_pos_iff polls 0 8 (sessLeft (some sess)) hle]
          simpa using hex
        simp [hp, h8]
    · intro hp
      have hmode : (phaseTimerOf sess = "FINALIZATION" ∧
          0 < probeLoop polls (sessLeft (some sess)))
          = (phaseTimerOf sess = "FINALIZATION") := by
        by_cases hf : phaseTimerOf sess = "FINALIZATION" <;> simp [hf, hp]
      simp [hp, hInactive, hmode]
  · intro hnot hnall
    unfold maybe_start_timer; dsimp only
    simp [hnot, hnall]

/-- Session for the C4 witness: finalization timer with 100 ms left. -/
def sessFin : Session :=
  { timer := some { phase := some "FINALIZATION", adjustedTimeLeftInPhase := some 100 } }

/-- C4 witness: the authoritative trigger arms immediately in mode
"finalization". -/
theorem C4_arming_triggers_witness :
    maybe_start_timer ({} : SharedState) sessFin (fun _ => none) 7
      = (armEpoch {} 100 7, some "finalization") := by
  have h := (C4_arming_triggers {} sessFin (fun _ => none) 7 rfl).1
    (by decide) (by decide)
  exact h

/-! ## Name database (`src/database/name_db.py`) -/

/-- An entry of the name database (the `Entry` dataclass). -/
structure Entry where
  key : String
  kind : String
  champ_slug : String
  champ_id : Int
  skin_id : Option Int := none
deriving Repr, DecidableEq

/-- A raw skin object of a per-champion Data Dragon payload: the three
fields `_ensure_champ` reads, each possibly missing/null. -/
structure SkinJson where
  id : Option Int := none
  name : Option String := none
  num : Option Int := none
deriving Repr, DecidableEq

/-- `d.get(k)` on a Python dict modelled as an association list. -/
def alget {κ β : Type} [BEq κ] (m : List (κ × β)) (k : κ) : Option β :=
  (m.find? (fun p => p.1 == k)).map Prod.snd

/-- `d[k] = v` on a Python dict: overwrite the existing binding in place,
else append a new one at the end (insertion order preserved). -/
def alset {κ β : Type} [BEq κ] (m : List (κ × β)) (k : κ) (v : β) : List (κ × β) :=
  if m.any (fun p => p.1 == k) then
    m.map (fun p => if p.1 == k then (k, v) else p)
  else m ++ [(k, v)]

/-- `NameDB._cache_json`: the locally cached value (when the cache file
exists and parses) takes priority and the network is not consulted; on a
cache miss the fetched value decides; `none` = the request raised and
the exception propagates to `_cache_json`'s caller. -/
def cache_json {γ : Type} (cached fetched : Option γ) : Option γ :=
  match cached with
  | some j => some j
  | none => fetched

/-- Python `a or b` where `a` is an optional string: `None` and the
empty string are falsy and fall through to `b`. -/
def orStr (a : Option String) (b : String) : String :=
  match a with
  | some s => if s = "" then b else s
  | none => b

/-- Python `str.strip()` (whitespace trim), stated on the character list
so that it evaluates by kernel reduction. -/
def pyStrip (s : String) : String :=
  ⟨((s.data.dropWhile Char.isWhitespace).reverse.dropWhile Char.isWhitespace).reverse⟩

/-- The mutable state of `NameDB` used by the lookup operations. -/
structure NameDB where
  langs : List String := []
  slug_by_id : List (Int × String) := []
  champ_name_by_id_by_lang : List (String × List (Int × String)) := []
  champ_name_by_id : List (Int × String) := []
  entries_by_champ : List (String × List Entry) := []
  skin_name_by_id : List (Int × String) := []
  skins_loaded : List String := []
  global_entries : Option (List Entry) := none

/-- The `cname` fallback chain of `_ensure_champ` (lines 120–124):
per-language name, else canonical name, else the slug; Python `or`
treats `None` and `""` as falsy. -/
def cnameFor (db : NameDB) (lang slug : String) (champ_id : Int) : String :=
  orStr (alget ((alget db.champ_name_by_id_by_lang lang).getD []) champ_id)
    (orStr (alget db.champ_name_by_id champ_id) slug)

/-- Accumulator of `_ensure_champ`'s skin loop: the `out` list being
extended, the `keys_seen` set, and the `skin_name_by_id` table. -/
structure EnsureAcc where
  out : List Entry
  seen : List String
  skinNames : List (Int × String)

/-- One `for label in (full, sname)` iteration (lines 136–142). -/
def addSkinLabel (slug : String) (champ_id sid : Int) (label : String)
    (acc : EnsureAcc) : EnsureAcc :=
  if label ∈ acc.seen then acc
  else { acc with
         out := acc.out ++ [{ key := label, kind := "skin", champ_slug := slug,
                              champ_id := champ_id, skin_id := some sid }],
         seen := acc.seen ++ [label] }

/-- One skin of the per-champion payload (lines 126–144): a missing or
non-integer `id` raises inside the per-skin `try` and skips the skin;
a nonzero id records the (stripped) skin name; base skins (`num == 0`)
and unnamed skins contribute no entries. -/
def processSkin (slug : String) (champ_id : Int) (cname : String)
    (acc : EnsureAcc) (s : SkinJson) : EnsureAcc :=
  match s.id with
  | none => acc
  | some sid =>
      let sname := pyStrip (s.name.getD "")
      let num := s.num.getD 0
      let acc1 := if sid ≠ 0 then { acc with skinNames := alset acc.skinNames sid sname }
                  else acc
      if num = 0 ∨ sname = "" then acc1
      else addSkinLabel slug champ_id sid sname
             (addSkinLabel slug champ_id sid (cname ++ " " ++ sname) acc1)

/-- `NameDB._ensure_champ` (lines 104–147).  `fetch lang slug` is the
outcome of `_cache_json` for that champion file: `none` = it raised
(cache miss and network failure), which the per-language `try` catches,
skipping the language. -/
def ensure_champ (fetch : String → String → Option (List SkinJson))
    (db : NameDB) (slug : String) (champ_id : Int) : NameDB :=
  if slug ∈ db.skins_loaded then db
  else
    let out0 := (alget db.entries_by_champ slug).getD []
    let acc0 : EnsureAcc := ⟨out0, [], db.skin_name_by_id⟩
    let accF := db.langs.foldl (fun acc lang =>
      match fetch lang slug with
      | none => acc
      | some skins =>
          skins.foldl (processSkin slug champ_id (cnameFor db lang slug champ_id)) acc)
      acc0
    { db with entries_by_champ := alset db.entries_by_champ slug accF.out,
              skin_name_by_id := accF.skinNames,
              skins_loaded := db.skins_loaded ++ [slug] }

/-- The `_global_entries` construction (lines 157–164): one champion
entry per (language, champion) pair whose slug is known and non-empty. -/
def build_global (db : NameDB) : List Entry :=
  db.champ_name_by_id_by_lang.foldl (fun glb p =>
    p.2.foldl (fun g q =>
      let slug := (alget db.slug_by_id q.1).getD ""
      if slug = "" then g
      else g ++ [{ key := q.2, kind := "champion", champ_slug := slug,
                   champ_id := q.1 }]) glb) []

/-- The fallback branch of `candidates_for_champ` (lines 156–165):
return the cached global list, building and caching it on first use. -/
def globalBranch (db : NameDB) : List Entry × NameDB :=
  match db.global_entries with
  | some g => (g, db)
  | none =>
      let g := build_global db
      (g, { db with global_entries := some g })

/-- `NameDB.candidates_for_champ` (lines 149–165): a truthy champion id
with a known slug loads (once) and returns that champion's entries;
anything else falls back to the global champion-name list. -/
def candidates_for_champ (fetch : String → String → Option (List SkinJson))
    (db : NameDB) (champ_id : Option Int) : List Entry × NameDB :=
  match champ_id with
  | some cid =>
      if cid = 0 then globalBranch db
      else
        match alget db.slug_by_id cid with
        | some slug =>
            let db2 := ensure_champ fetch db slug cid
            ((alget db2.entries_by_champ slug).getD [], db2)
        | none => globalBranch db
  | none => globalBranch db

/-- `self.db.champ_name_by_id.get(cid)` — the name-by-id lookup used for
labels; its callers supply a fallback label when it is absent. -/
def champ_name_lookup (db : NameDB) (cid : Int) : Option String :=
  alget db.champ_name_by_id cid

/-! ### C8: the name-database lookups -/

lemma alget_append_self {κ β : Type} [BEq κ] [LawfulBEq κ]
    (m : List (κ × β)) (k : κ) (v : β)
    (h : m.any (fun p => p.1 == k) = false) :
    alget (m ++ [(k, v)]) k = some v := by
  induction m with
  | nil => simp [alget]
  | cons p t ih =>
      simp only [List.any_cons, Bool.or_eq_false_iff] at h
      unfold alget
      rw [List.cons_append, List.find?_cons_of_neg _ (by simp [h.1])]
      exact ih h.2

lemma alget_overwrite {κ β : Type} [BEq κ] [LawfulBEq κ]
    (m : List (κ × β)) (k : κ) (v : β)
    (h : m.any (fun p => p.1 == k) = true) :
    alget (m.map (fun p => if p.1 == k then (k, v) else p)) k = some v := by
  induction m with
  | nil => simp at h
  | cons p t ih =>
      by_cases hpk : (p.1 == k) = true
      · unfold alget
        simp only [List.map_cons, if_pos hpk]
        rw [List.find?_cons_of_pos _ (by simp)]
        rfl
      · simp only [List.any_cons, hpk, Bool.false_or] at h
        unfold alget
        simp only [List.map_cons, if_neg hpk]
        rw [List.find?_cons_of_neg _ (by simp [hpk])]
        exact ih h

lemma alget_alset_self {κ β : Type} [BEq κ] [LawfulBEq κ]
    (m : List (κ × β)) (k : κ) (v : β) :
    alget (alset m k v) k = some v := by
  unfold alset
  by_cases h : m.any (fun p => p.1 == k) = true
  · rw [if_pos h]; exact alget_overwrite m k v h
  · rw [if_neg h]
    exact alget_append_self m k v (Bool.eq_false_iff.mpr h)

lemma foldl_id {β γ : Type} (l : List γ) (a : β) :
    l.foldl (fun acc _ => acc) a = a := by
  induction l generalizing a with
  | nil => rfl
  | cons h t ih => exact ih a

lemma ensure_champ_preserves (fetch : String → String → Option (List SkinJson))
    (db : NameDB) (slug : String) (cid : Int) :
    (ensure_champ fetch db slug cid).slug_by_id = db.slug_by_id ∧
    (ensure_champ fetch db slug cid).champ_name_by_id = db.champ_name_by_id ∧
    (ensure_champ fetch db slug cid).champ_name_by_id_by_lang
      = db.champ_name_by_id_by_lang ∧
    (ensure_champ fetch db slug cid).langs = db.langs ∧
    (ensure_champ fetch db slug cid).global_entries = db.global_entries := by
  unfold ensure_champ
  split_ifs <;> exact ⟨rfl, rfl, rfl, rfl, rfl⟩

lemma globalBranch_spec (db : NameDB) :
    (globalBranch db).2.slug_by_id = db.slug_by_id ∧
    (globalBranch db).2.champ_name_by_id = db.champ_name_by_id ∧
    (globalBranch db).2.champ_name_by_id_by_lang = db.champ_name_by_id_by_lang ∧
    (globalBranch db).2.langs = db.langs ∧
    (globalBranch db).2.entries_by_champ = db.entries_by_champ ∧
    (globalBranch db).1 = db.global_entries.getD (build_global db) := by
  rcases hg : db.global_entries with _ | g <;>
    (unfold globalBranch
     rw [hg]
     simp [hg])

lemma ensure_champ_no_fetch (fetch : String → String → Option (List SkinJson))
    (db : NameDB) (slug : String) (cid : Int)
    (hf : ∀ l s, fetch l s = none) :
    (alget (ensure_champ fetch db slug cid).entries_by_champ slug).getD []
      = (alget db.entries_by_champ slug).getD [] := by
  unfold ensure_champ
  split_ifs with h
  · rfl
  · dsimp only
    simp only [hf]
    rw [foldl_id]
    rw [alget_alset_self]
    rfl

lemma candidates_cases (fetch : String → String → Option (List SkinJson))
    (db : NameDB) (cid : Option Int) :
    (∃ c slug, cid = some c ∧ c ≠ 0 ∧ alget db.slug_by_id c = some slug ∧
       candidates_for_champ fetch db cid =
         ((alget (ensure_champ fetch db slug c).entries_by_champ slug).getD [],
          ensure_champ fetch db slug c)) ∨
    ((cid = none ∨ cid = some 0 ∨ ∃ c, cid = some c ∧ alget db.slug_by_id c = none) ∧
       candidates_for_champ fetch db cid = globalBranch db) := by
  cases cid with
  | none => right; exact ⟨Or.inl rfl, rfl⟩
  | some c =>
      by_cases hc : c = 0
      · right
        subst hc
        exact ⟨Or.inr (Or.inl rfl), by simp [candidates_for_champ]⟩
      · cases hs : alget db.slug_by_id c with
        | some slug =>
            left
            exact ⟨c, slug, rfl, hc, hs, by simp [candidates_for_champ, hc, hs]⟩
        | none =>
            right
            exact ⟨Or.inr (Or.inr ⟨c, rfl, hs⟩),
                   by simp [candidates_for_champ, hc, hs]⟩

/-- C8: the name-database lookups are total and degrade to an absent or
fallback result instead of raising, for every champion id (including
unknown ones) and in particular when the backing data source is
unreachable (`fetch` always failing — every per-language fetch failure
is caught and skipped); they never alter the identification tables
(`slug_by_id`, the name maps), so the name-by-id lookup observed by
callers is unchanged by any candidates lookup; and `_cache_json` is
cache-backed — while the cache holds a value, the network outcome is
irrelevant to the result. -/
theorem C8_name_db_degrades (fetch : String → String → Option (List SkinJson))
    (db : NameDB) (cid : Option Int) :
    (candidates_for_champ fetch db cid).2.slug_by_id = db.slug_by_id ∧
    (candidates_for_champ fetch db cid).2.champ_name_by_id = db.champ_name_by_id ∧
    (candidates_for_champ fetch db cid).2.champ_name_by_id_by_lang
      = db.champ_name_by_id_by_lang ∧
    (∀ c : Int, champ_name_lookup (candidates_for_champ fetch db cid).2 c
      = champ_name_lookup db c) ∧
    ((cid = none ∨ cid = some 0 ∨ ∃ c, cid = some c ∧ alget db.slug_by_id c = none) →
      (candidates_for_champ fetch db cid).1
        = db.global_entries.getD (build_global db)) ∧
    ((∀ l s, fetch l s = none) →
      ∀ (c : Int) (slug : String), cid = some c → c ≠ 0 →
      alget db.slug_by_id c = some slug →
      (candidates_for_champ fetch db cid).1
        = (alget db.entries_by_champ slug).getD []) ∧
    (∀ cache net net2 : String → String → Option (List SkinJson),
      (∀ l s, (cache l s).isSome = true) →
      candidates_for_champ (fun l s => cache_json (cache l s) (net l s)) db cid
        = candidates_for_champ (fun l s => cache_json (cache l s) (net2 l s)) db cid) := by
  have hcache : ∀ cache net net2 : String → String → Option (List SkinJson),
      (∀ l s, (cache l s).isSome = true) →
      candidates_for_champ (fun l s => cache_json (cache l s) (net l s)) db cid
        = candidates_for_champ (fun l s => cache_json (cache l s) (net2 l s)) db cid := by
    intro cache net net2 hc
    have hfe : (fun l s => cache_json (cache l s) (net l s))
        = (fun l s => cache_json (cache l s) (net2 l s)) := by
      funext l s
      rcases hcs : cache l s with _ | j
      · have := hc l s
        rw [hcs] at this
        simp at this
      · simp [cache_json, hcs]
    rw [hfe]
  rcases candidates_cases fetch db cid with
    ⟨c, slug, hcid, hc0, hs, heq⟩ | ⟨hcase, heq⟩
  · obtain ⟨e1, e2, e3, e4, e5⟩ := ensure_champ_preserves fetch db slug c
    refine ⟨by rw [heq]; exact e1, by rw [heq]; exact e2, by rw [heq]; exact e3,
            ?_, ?_, ?_, hcache⟩
    · intro c2
      unfold champ_name_lookup
      rw [heq]
      dsimp only
      rw [e2]
    · intro hdisj
      exfalso
      rcases hdisj with h | h | ⟨c2, hc2, hn⟩
      · rw [hcid] at h; cases h
      · rw [hcid] at h
        exact hc0 (by injection h)
      · rw [hcid] at hc2
        have : c = c2 := by injection hc2
        subst this
        rw [hs] at hn
        cases hn
    · intro hf c2 slug2 hcid2 _ hs2
      rw [hcid] at hcid2
      have hcc : c = c2 := by injection hcid2
      subst hcc
      rw [hs] at hs2
      have hss : slug = slug2 := by injection hs2
      subst hss
      rw [heq]
      exact ensure_champ_no_fetch fetch db slug c hf
  · obtain ⟨g1, g2, g3, g4, g5, g6⟩ := globalBranch_spec db
    refine ⟨by rw [heq]; exact g1, by rw [heq]; exact g2, by rw [heq]; exact g3,
            ?_, ?_, ?_, hcache⟩
    · intro c2
      unfold champ_name_lookup
      rw [heq, g2]
    · intro _
      rw [heq]
      exact g6
    · intro _ c2 slug2 hcid2 hc2 hs2
      exfalso
      rcases hcase with h | h | ⟨c3, hc3, hn⟩
      · rw [hcid2] at h; cases h
      · rw [hcid2] at h
        exact hc2 (by injection h)
      · rw [hcid2] at hc3
        have : c2 = c3 := by injection hc3
        subst this
        rw [hs2] at hn
        cases hn

/-- A concrete database for the C8 witness. -/
def db8 : NameDB := { champ_name_by_id := [(266, "Aatrox")] }

/-- C8 witness: an unknown champion id degrades to the global fallback
list even with the data source unreachable. -/
theorem C8_name_db_degrades_witness :
    (candidates_for_champ (fun _ _ => none) db8 (some 999)).1
      = db8.global_entries.getD (build_global db8) :=
  (C8_name_db_degrades (fun _ _ => none) db8 (some 999)).2.2.2.2.1
    (Or.inr (Or.inr ⟨999, rfl, rfl⟩))

end LoLSkinChanger
